import Mathlib

/-!
# Verification of the mcp-rlp dual-response core

A shallow embedding of the resource-handle registry
(`src/example/server/resources/store.js`), the windowed retrieval gateway
(`src/example/server/resources/router.js`) and the client-side response
classifier and pagination engine
(`src/example/client/mcp/dual-response.js`).

Modelling conventions:
* The SQL engine is an external collaborator; a stored query is represented
  by its denotation, a list of rows (`List α`).  The gateway's rewriting of
  the stored SQL text (`SELECT * FROM (sql) LIMIT l OFFSET s`, SQLite
  `LIMIT -1` meaning "no limit", and the outer `ORDER BY "f" ASC|DESC`) is
  embedded by the corresponding list operations `drop`/`take` and sorting.
* JavaScript values reaching the classifier are modelled by the inductive
  type `JSValue`; JSON numbers are modelled as integers.  Expressions that
  can raise a `TypeError` at run time are embedded in `Except Unit`.
* Wall-clock readings (`new Date()`) are passed explicitly as `now : Nat`.
* `crypto.randomUUID()` is externalized: `create` takes the generated id as
  an argument; global uniqueness of generated ids is a hypothesis where a
  claim needs it.
-/

namespace McpRlp

/-! ## Windowed retrieval gateway: page computation (router.js) -/

/-- Response body of `GET /resources/:guid` (router.js lines 85-93). -/
structure GetResponse (α : Type) where
  data : List α
  total_count : Nat
  returned_count : Nat
  skip : Nat
  limit : Option Nat
  has_next : Bool
  has_prev : Bool
  deriving DecidableEq, Repr

/-- Denotation of the paginated SQL built by the GET handler
(router.js lines 63-69): with a limit, `SELECT * FROM (sql) LIMIT limit
OFFSET skip`; with only a positive skip, `LIMIT -1 OFFSET skip` (all
remaining rows); otherwise the stored query unchanged. -/
def sqlWindow (rows : List α) (skip : Nat) (limit : Option Nat) : List α :=
  match limit with
  | some l => (rows.drop skip).take l
  | none => if 0 < skip then rows.drop skip else rows

/-- The GET handler's successful page response (router.js lines 60-93):
`has_next = limit !== null && (skip + rows.length) < resource.totalCount`,
`has_prev = skip > 0`, `total_count` taken from the stored resource. -/
def getPage (rows : List α) (totalCount skip : Nat) (limit : Option Nat) :
    GetResponse α :=
  let rows' := sqlWindow rows skip limit
  { data := rows'
    total_count := totalCount
    returned_count := rows'.length
    skip := skip
    limit := limit
    has_next := limit.isSome && decide (skip + rows'.length < totalCount)
    has_prev := decide (0 < skip) }

/-- Response body of `POST /resources/:guid` (router.js lines 169-176). -/
structure PostResponse (α : Type) where
  data : List α
  total_count : Nat
  returned_count : Nat
  offset : Nat
  has_next : Bool
  next_offset : Option Nat
  deriving DecidableEq, Repr

/-- A `sort` body member: the requested field is represented by its
denotation, a projection from rows to the (comparable) field value, and the
raw `order` string. -/
structure SortSpec (α : Type) where
  proj : α → Int
  order : Option String

/-- `sort.order === 'desc' ? 'DESC' : 'ASC'` (router.js line 146): anything
other than the exact string `"desc"` means ascending. -/
def descRequested (order : Option String) : Bool :=
  order = some "desc"

/-- Insertion into a list sorted by the boolean comparator `le`. -/
def insSorted (le : α → α → Bool) (a : α) : List α → List α
  | [] => [a]
  | b :: t => if le a b then a :: b :: t else b :: insSorted le a t

/-- Insertion sort by the boolean comparator `le`: the model of the SQL
`ORDER BY` applied by the POST handler. -/
def sortByLe (le : α → α → Bool) : List α → List α
  | [] => []
  | a :: t => insSorted le a (sortByLe le t)

/-- Comparator denoted by `ORDER BY "field" ASC|DESC` for a field with
denotation `proj`. -/
def leOfSort (proj : α → Int) (order : Option String) : α → α → Bool :=
  if descRequested order then fun a b => decide (proj b ≤ proj a)
  else fun a b => decide (proj a ≤ proj b)

/-- The POST handler's successful page response (router.js lines 138-176):
if a sort with a field is given, the stored query is wrapped in an outer
`ORDER BY "field" order` BEFORE `LIMIT limit OFFSET offset` is applied;
`has_next = offset + rows.length < resource.totalCount`,
`next_offset = hasNext ? offset + rows.length : null`. -/
def postPage (rows : List α) (totalCount : Nat) (sort : Option (SortSpec α))
    (offset limit : Nat) : PostResponse α :=
  let base := match sort with
    | some sp => sortByLe (leOfSort sp.proj sp.order) rows
    | none => rows
  let data := (base.drop offset).take limit
  { data := data
    total_count := totalCount
    returned_count := data.length
    offset := offset
    has_next := decide (offset + data.length < totalCount)
    next_offset :=
      if offset + data.length < totalCount then some (offset + data.length)
      else none }

end McpRlp

namespace McpRlp

/-! ## Client pagination engine (dual-response.js) -/

/-- A gateway reply to the client's GET-form page request: a 200 with a
page body, or a JSON error body `{error, message}` with a non-2xx status
(the gateway sends `404 not_found` and `500 query_failed`). -/
inductive GetReply (α : Type) where
  | ok (p : GetResponse α)
  | err (status : Nat) (error : String) (message : String)
  deriving DecidableEq, Repr

/-- `DualResponseClient.fetch` (dual-response.js lines 188-221): a non-2xx
response raises `Error(error.message || Fetch failed with status N)`;
a 200 resolves to the page body.  (The `skip` query parameter is set only
when positive and `limit` whenever provided; the server parses an absent
`skip` as 0 and an absent `limit` as null, so the reply is a function of
the numeric `skip` and optional `limit`.) -/
def fetchE (r : GetReply α) : Except String (GetResponse α) :=
  match r with
  | .ok p => .ok p
  | .err st _ msg =>
      .error (if msg = "" then "Fetch failed with status " ++ toString st else msg)

/-- The `while (hasNext)` loop of `DualResponseClient.fetchAll`
(dual-response.js lines 245-263): fetch at the current cursor with
`limit = batchSize`, append `result.data`, advance the cursor by
`result.data.length`, continue iff `result.has_next`.  A thrown fetch
error aborts the loop, discarding the accumulated rows, exactly as the
exception propagates in the source.  `fuel` bounds the number of
iterations of the model; `none` means the loop did not finish within
`fuel` rounds. -/
def fetchAllGo (srv : Nat → Option Nat → GetReply α) (batchSize : Nat)
    (acc : List α) (skip : Nat) : Nat → Option (Except String (List α))
  | 0 => none
  | fuel + 1 =>
    match fetchE (srv skip (some batchSize)) with
    | .error m => some (.error m)
    | .ok p =>
      let acc' := acc ++ p.data
      if p.has_next then fetchAllGo srv batchSize acc' (skip + p.data.length) fuel
      else some (.ok acc')

/-- `DualResponseClient.fetchAll` (dual-response.js lines 232-271): starts
at `skip = 0` with an empty accumulator. -/
def fetchAll (srv : Nat → Option Nat → GetReply α) (batchSize fuel : Nat) :
    Option (Except String (List α)) :=
  fetchAllGo srv batchSize [] 0 fuel

/-- The gateway's behaviour for one existing resource whose stored query
denotes `rows` and whose recorded `totalCount` is `total`: every GET-form
page request is answered by `getPage` (router.js lines 60-93). -/
def pageServer (rows : List α) (total : Nat) :
    Nat → Option Nat → GetReply α :=
  fun skip limit => .ok (getPage rows total skip limit)

/-- Modelled from the spec: `fetchStream(resourceUrl, {batchSize})` is
listed in spec §4.5 and in the client API documentation embedded in
`agent.js` (`parsed.fetchStream(options) -> AsyncGenerator<array>`), but no
implementation exists in `DualResponseClient`.  Following the spec's words
it uses the identical cursor logic to `fetchAll` — fetch at the cursor,
advance by the actual rows returned, stop when `has_next` is false — but
yields each batch instead of accumulating; the produced value is the
(finite) sequence of yielded batches. -/
def fetchStreamGo (srv : Nat → Option Nat → GetReply α) (batchSize skip : Nat) :
    Nat → Option (Except String (List (List α)))
  | 0 => none
  | fuel + 1 =>
    match fetchE (srv skip (some batchSize)) with
    | .error m => some (.error m)
    | .ok p =>
      if p.has_next then
        (fetchStreamGo srv batchSize (skip + p.data.length) fuel).map
          (Except.map (fun bs => p.data :: bs))
      else some (.ok [p.data])

/-- Modelled from the spec: each invocation of `fetchStream` starts a fresh
cursor at `skip = 0`. -/
def fetchStream (srv : Nat → Option Nat → GetReply α) (batchSize fuel : Nat) :
    Option (Except String (List (List α))) :=
  fetchStreamGo srv batchSize 0 fuel

/-- `DualResponseClient.getMetadata` (dual-response.js lines 279-297):
issues a plain GET of the resource URL with no `skip` and no `limit`
query parameters — the server parses these as `skip = 0`, `limit = null` —
and resolves to the full response body; non-2xx raises
`Error(error.message || Metadata fetch failed with status N)`. -/
def getMetadataE (srv : Nat → Option Nat → GetReply α) :
    Except String (GetResponse α) :=
  match srv 0 none with
  | .ok p => .ok p
  | .err st _ msg =>
      .error (if msg = "" then "Metadata fetch failed with status " ++ toString st
              else msg)

/-! ## Resource registry (store.js) -/

/-- A registry entry (store.js lines 35-45).  `expiresAt` is always `none`
at creation (expiration is a documented no-op). -/
structure StoredResource where
  id : String
  sql : String
  totalCount : Nat
  createdAt : Nat
  accessCount : Nat
  lastAccessedAt : Option Nat
  expiresAt : Option Nat
  deriving DecidableEq, Repr

/-- The `Map` held by `ResourceStore`, as an association list; `create`
conses a fresh binding at the front, so lookup finds the newest binding. -/
def Store := List (String × StoredResource)

/-- `Map.get`-style lookup without the access bookkeeping. -/
def storeLookup (s : Store) (g : String) : Option StoredResource :=
  (s.find? fun p => decide (p.1 = g)).map (·.2)

/-- Replace the binding of `g` (the in-place mutation of the entry object
performed by `ResourceStore.get`). -/
def storeUpdate (s : Store) (g : String) (r : StoredResource) : Store :=
  s.map fun p => if p.1 = g then (g, r) else p

/-- `ResourceStore.create` (store.js lines 32-56): the generated id `g` is
externalized as an argument; the new entry starts with `accessCount = 0`,
`lastAccessedAt = null`, `expiresAt = null`. -/
def storeCreate (s : Store) (g sql : String) (total now : Nat) : Store :=
  (g, { id := g, sql := sql, totalCount := total, createdAt := now,
        accessCount := 0, lastAccessedAt := none, expiresAt := none }) :: s

/-- `ResourceStore.get` (store.js lines 63-85): on a hit, increments
`accessCount`, sets `lastAccessedAt` to the current time and returns the
(mutated) entry; on a miss returns `null` and leaves the table unchanged. -/
def storeGet (s : Store) (g : String) (now : Nat) :
    Option StoredResource × Store :=
  match storeLookup s g with
  | none => (none, s)
  | some r =>
    let r' := { r with accessCount := r.accessCount + 1,
                       lastAccessedAt := some now }
    (some r', storeUpdate s g r')

/-- `ResourceStore.delete` (store.js lines 92-101): returns whether the id
existed and removes it. -/
def storeDelete (s : Store) (g : String) : Bool × Store :=
  (s.any fun p => decide (p.1 = g),
   s.filter fun p => !(decide (p.1 = g)))

/-- `ResourceStore.list` (store.js lines 107-109). -/
def storeList (s : Store) : List StoredResource :=
  s.map (·.2)

/-- `ResourceStore.stats` (store.js lines 115-125): the table size and a
projection of each entry; read-only. -/
def storeStats (s : Store) : Nat × List (String × Nat × Nat) :=
  (s.length, (storeList s).map fun r => (r.id, r.totalCount, r.accessCount))

/-- One registry operation, with its externalized inputs (generated id,
clock reading). -/
inductive StoreOp where
  | create (g sql : String) (total now : Nat)
  | get (g : String) (now : Nat)
  | delete (g : String)
  | listOp
  | statsOp
  deriving DecidableEq, Repr

/-- Effect of one operation on the table (list/stats are read-only). -/
def applyOp (s : Store) : StoreOp → Store
  | .create g sql total now => storeCreate s g sql total now
  | .get g now => (storeGet s g now).2
  | .delete g => (storeDelete s g).2
  | .listOp => s
  | .statsOp => s

/-- Run a sequence of registry operations. -/
def runOps (s : Store) (ops : List StoreOp) : Store :=
  ops.foldl applyOp s

/-- Whether an operation creates a binding for the id `g`.  Generated ids
are cryptographically strong UUIDs, so a sequence that re-creates a
previously used id is excluded by hypothesis where a claim needs it. -/
def createsGuid (g : String) : StoreOp → Bool
  | .create g' _ _ _ => decide (g' = g)
  | _ => false

/-! ## Gateway request handlers over the store (router.js) -/

/-- A reply to `POST /resources/:guid`. -/
inductive PostReply (α : Type) where
  | ok (p : PostResponse α)
  | err (status : Nat) (error : String) (message : String)
  deriving DecidableEq, Repr

/-- A reply to `DELETE /resources/:guid`. -/
inductive DeleteReply where
  | noContent
  | err (status : Nat) (error : String) (message : String)
  deriving DecidableEq, Repr

/-- `router.get('/:guid')` (router.js lines 38-104): looks the id up in the
store (which increments its access counter), answers
`404 {error: not_found, message: Resource not found or expired}` on a
miss, and otherwise the page computed from the stored query's denotation
(`denote`) and recorded `totalCount`. -/
def routerGet (denote : String → List α) (s : Store) (g : String)
    (now skip : Nat) (limit : Option Nat) : GetReply α × Store :=
  match storeGet s g now with
  | (none, s') => (.err 404 "not_found" "Resource not found or expired", s')
  | (some r, s') => (.ok (getPage (denote r.sql) r.totalCount skip limit), s')

/-- `router.post('/:guid')` (router.js lines 117-187): same lookup and 404
branch; otherwise the sorted, windowed page. -/
def routerPost (denote : String → List α) (s : Store) (g : String)
    (now : Nat) (sort : Option (SortSpec α)) (offset limit : Nat) :
    PostReply α × Store :=
  match storeGet s g now with
  | (none, s') => (.err 404 "not_found" "Resource not found or expired", s')
  | (some r, s') =>
      (.ok (postPage (denote r.sql) r.totalCount sort offset limit), s')

/-- `router.delete('/:guid')` (router.js lines 193-210): 204 when the id
existed, otherwise `404 {error: not_found, message: Resource not found}`. -/
def routerDelete (s : Store) (g : String) : DeleteReply × Store :=
  let (existed, s') := storeDelete s g
  (if existed then .noContent else .err 404 "not_found" "Resource not found", s')

end McpRlp

namespace McpRlp

/-! ## JavaScript values and the client response classifier -/

mutual

/-- A JavaScript value as seen by the classifier.  Numbers are modelled as
integers.  Array elements and object fields are held in the companion
types `JSList` and `JSFields` so that every function over values is
structurally recursive (and therefore evaluates by definitional
unfolding). -/
inductive JSValue where
  | undefined
  | null
  | bool (b : Bool)
  | num (n : Int)
  | str (s : String)
  | arr (elems : JSList)
  | obj (fields : JSFields)

/-- The elements of a JavaScript array. -/
inductive JSList where
  | nil
  | cons (hd : JSValue) (tl : JSList)

/-- The fields of a JavaScript object, in insertion order. -/
inductive JSFields where
  | nil
  | cons (key : String) (val : JSValue) (tl : JSFields)

end

/-- Convert array elements to a `List`. -/
def JSList.toList : JSList → List JSValue
  | .nil => []
  | .cons e tl => e :: tl.toList

/-- Build array elements from a `List`. -/
def JSList.ofList : List JSValue → JSList
  | [] => .nil
  | e :: tl => .cons e (JSList.ofList tl)

/-- Build object fields from a `List`. -/
def JSFields.ofList : List (String × JSValue) → JSFields
  | [] => .nil
  | (k, v) :: tl => .cons k v (JSFields.ofList tl)

/-- First binding of a key among an object's fields (`undefined` when the
key is absent). -/
def JSFields.fieldGet : JSFields → String → JSValue
  | .nil, _ => .undefined
  | .cons key v tl, k => if key = k then v else tl.fieldGet k

/-- Array literal helper. -/
def jarr (es : List JSValue) : JSValue :=
  .arr (JSList.ofList es)

/-- Object literal helper. -/
def jobj (fs : List (String × JSValue)) : JSValue :=
  .obj (JSFields.ofList fs)

/-- JavaScript truthiness: `undefined`, `null`, `false`, `0` and the empty
string are falsy; every object (including the empty array and object) is
truthy. -/
def truthy : JSValue → Bool
  | .undefined => false
  | .null => false
  | .bool b => b
  | .num n => decide (n ≠ 0)
  | .str s => decide (s ≠ "")
  | .arr _ => true
  | .obj _ => true

/-- Plain property access `v.k` on a non-nullish value: a field lookup on
objects, `undefined` on primitives and arrays (none of the accessed names
is a built-in property of those). -/
def getField : JSValue → String → JSValue
  | .obj fields, k => fields.fieldGet k
  | _, _ => .undefined

/-- Optional-chained access `v?.k`: short-circuits to `undefined` on a
nullish base. -/
def optField (v : JSValue) (k : String) : JSValue :=
  match v with
  | .undefined => .undefined
  | .null => .undefined
  | _ => getField v k

/-- `parsed?.resource?.url` truthiness, the classifier's match test. -/
def jsHasResUrl (v : JSValue) : Bool :=
  truthy (optField (optField v "resource") "url")

/-- `item?.type === 'text'`. -/
def isTextItem (item : JSValue) : Bool :=
  match optField item "type" with
  | .str s => decide (s = "text")
  | _ => false

/-- Substring search over character lists (`String.prototype.includes`). -/
def charsHaveSub (pat : List Char) : List Char → Bool
  | [] => pat.isEmpty
  | c :: rest => pat.isPrefixOf (c :: rest) || charsHaveSub pat rest

/-- Evaluation of `text?.includes('resource://')` for `text = txt`
(dual-response.js line 52): short-circuits to `undefined` (falsy) on a
nullish `text`; performs substring search on a string; on an array this is
`Array.prototype.includes` (strict-equality element search); on a number,
boolean or plain object, `.includes` is `undefined` and the call raises a
`TypeError`. -/
def includesResourceUri (txt : JSValue) : Except Unit Bool :=
  match txt with
  | .undefined => .ok false
  | .null => .ok false
  | .str s => .ok (charsHaveSub "resource://".data s.data)
  | .arr es => .ok (es.toList.any fun e =>
      match e with
      | .str s => decide (s = "resource://")
      | _ => false)
  | _ => .error ()

/-- `Array.isArray(content) ? content : [content]`
(dual-response.js lines 49, 112). -/
def contentItems : JSValue → List JSValue
  | .arr es => es.toList
  | v => [v]

/-! ### JSON.parse

A concrete model of `JSON.parse`: a recursive-descent parser over the
character list, with fuel bounding the recursion depth.  JSON numbers are
modelled as integers (an input with a fractional or exponent part is
rejected where JavaScript would accept it; no classifier claim depends on
such inputs).  String escapes are modelled by taking the character after a
backslash literally. -/

/-- Skip JSON whitespace. -/
def skipWs : List Char → List Char
  | c :: rest =>
      if c = ' ' ∨ c = '\n' ∨ c = '\t' ∨ c = '\r' then skipWs rest
      else c :: rest
  | [] => []

/-- Parse the remainder of a JSON string literal (after the opening
quote), accumulating characters in reverse. -/
def pStrGo (acc : List Char) : List Char → Option (String × List Char)
  | '"' :: rest => some (String.mk acc.reverse, rest)
  | '\\' :: c :: rest => pStrGo (c :: acc) rest
  | c :: rest => pStrGo (c :: acc) rest
  | [] => none

/-- Parse a run of decimal digits into a natural number. -/
def pNatGo (acc : Nat) : List Char → Nat × List Char
  | c :: rest =>
      if c.isDigit then pNatGo (acc * 10 + (c.toNat - 48)) rest
      else (acc, c :: rest)
  | [] => (acc, [])

/-- Parse a nonempty run of decimal digits. -/
def pNat : List Char → Option (Nat × List Char)
  | c :: rest => if c.isDigit then some (pNatGo 0 (c :: rest)) else none
  | [] => none

mutual

/-- Parse one JSON value. -/
def pVal : Nat → List Char → Option (JSValue × List Char)
  | 0, _ => none
  | fuel + 1, cs =>
    match skipWs cs with
    | 'n' :: 'u' :: 'l' :: 'l' :: rest => some (.null, rest)
    | 't' :: 'r' :: 'u' :: 'e' :: rest => some (.bool true, rest)
    | 'f' :: 'a' :: 'l' :: 's' :: 'e' :: rest => some (.bool false, rest)
    | '"' :: rest => (pStrGo [] rest).map fun p => (.str p.1, p.2)
    | '[' :: rest =>
      (match skipWs rest with
       | ']' :: rest' => some (.arr .nil, rest')
       | _ => (pElems fuel rest).map fun p => (jarr p.1, p.2))
    | '{' :: rest =>
      (match skipWs rest with
       | '}' :: rest' => some (.obj .nil, rest')
       | _ => (pMembers fuel rest).map fun p => (jobj p.1, p.2))
    | '-' :: rest => (pNat rest).map fun p => (.num (-(p.1 : Int)), p.2)
    | c :: rest =>
        if c.isDigit then (pNat (c :: rest)).map fun p => (.num p.1, p.2)
        else none
    | [] => none

/-- Parse the elements of a nonempty JSON array body. -/
def pElems : Nat → List Char → Option (List JSValue × List Char)
  | 0, _ => none
  | fuel + 1, cs =>
    match pVal fuel cs with
    | none => none
    | some (v, rest) =>
      match skipWs rest with
      | ',' :: rest' => (pElems fuel rest').map fun p => (v :: p.1, p.2)
      | ']' :: rest' => some ([v], rest')
      | _ => none

/-- Parse the members of a nonempty JSON object body. -/
def pMembers : Nat → List Char → Option (List (String × JSValue) × List Char)
  | 0, _ => none
  | fuel + 1, cs =>
    match skipWs cs with
    | '"' :: rest =>
      (match pStrGo [] rest with
       | none => none
       | some (k, rest1) =>
         match skipWs rest1 with
         | ':' :: rest2 =>
           (match pVal fuel rest2 with
            | none => none
            | some (v, rest3) =>
              match skipWs rest3 with
              | ',' :: rest4 => (pMembers fuel rest4).map fun p => ((k, v) :: p.1, p.2)
              | '}' :: rest4 => some ([(k, v)], rest4)
              | _ => none)
         | _ => none)
    | _ => none

end

/-- `JSON.parse` on a string: parse one value and require only whitespace
to remain. -/
def parseJson (s : String) : Option JSValue :=
  match pVal (s.length + 2) s.data with
  | some (v, rest) => if (skipWs rest).isEmpty then some v else none
  | none => none

mutual

/-- `String(v)`, the coercion `JSON.parse` applies to a non-string
argument: arrays join their elements with commas (nullish elements become
the empty string), plain objects print as `[object Object]`. -/
def toStringJS : JSValue → String
  | .undefined => "undefined"
  | .null => "null"
  | .bool b => if b then "true" else "false"
  | .num n => toString n
  | .str s => s
  | .arr es => joinComma es
  | .obj _ => "[object Object]"

/-- `Array.prototype.join(',')` over coerced elements; nullish elements
join as the empty string. -/
def joinComma : JSList → String
  | .nil => ""
  | .cons e .nil =>
    (match e with
     | .undefined => ""
     | .null => ""
     | _ => toStringJS e)
  | .cons e rest =>
    (match e with
     | .undefined => ""
     | .null => ""
     | _ => toStringJS e) ++ "," ++ joinComma rest

end

/-- `JSON.parse(v)` for an arbitrary argument: coerce to a string, then
parse. -/
def jsonParseJS (v : JSValue) : Option JSValue :=
  parseJson (toStringJS v)

/-! ### isDualResponse and parse -/

/-- The `for (const item of content)` loop of `isDualResponse`
(dual-response.js lines 50-71): for each text item, first evaluate
`item?.text?.includes('resource://')` (which can raise, see
`includesResourceUri`); on a hit return true; otherwise try
`JSON.parse(item.text)` — a parse failure is caught and the loop
continues — and return true when the parsed value has a truthy
`resource.url`. -/
def scanIsDR : List JSValue → Except Unit Bool
  | [] => .ok false
  | item :: rest =>
    if isTextItem item then
      match includesResourceUri (optField item "text") with
      | .error e => .error e
      | .ok true => .ok true
      | .ok false =>
        match jsonParseJS (optField item "text") with
        | some parsed => if jsHasResUrl parsed then .ok true else scanIsDR rest
        | none => scanIsDR rest
    else scanIsDR rest

/-- The final shape check of `isDualResponse`
(dual-response.js lines 74-87): a bare string parsed as JSON with a
truthy `resource.url`; anything else is not a dual response. -/
def stringShapeIsDR : JSValue → Except Unit Bool
  | .str s =>
    (match parseJson s with
     | some parsed => .ok (jsHasResUrl parsed)
     | none => .ok false)
  | _ => .ok false

/-- Sequencing after the content block of `isDualResponse`: a raised
error propagates, a hit returns true, otherwise the bare-string shape is
tried (the remaining code of dual-response.js lines 74-89). -/
def afterContent (t : JSValue) : Except Unit Bool → Except Unit Bool
  | .error e => .error e
  | .ok true => .ok true
  | .ok false => stringShapeIsDR t

/-- `DualResponseClient.isDualResponse` (dual-response.js lines 30-90):
the ordered shape search.  `Except.error` models a raised `TypeError`. -/
def isDualResponse (t : JSValue) : Except Unit Bool :=
  if truthy (optField (optField (optField t "structuredContent") "resource") "url")
  then .ok true
  else if truthy (optField (optField t "resource") "url") then .ok true
  else
    afterContent t
      (if truthy (optField t "content")
       then scanIsDR (contentItems (optField t "content"))
       else .ok false)

/-- The `for (const item of content)` loop of `parse`
(dual-response.js lines 113-125): only the JSON attempt, no
`resource://` substring check; the first parsed value with a truthy
`resource.url` is kept. -/
def scanParse : List JSValue → Option JSValue
  | [] => none
  | item :: rest =>
    if isTextItem item then
      match jsonParseJS (optField item "text") with
      | some parsed => if jsHasResUrl parsed then some parsed else scanParse rest
      | none => scanParse rest
    else scanParse rest

/-- The record `parse` returns (dual-response.js lines 146-164).  Fields
keep their JavaScript values. -/
structure DualParsed where
  sample : JSValue
  totalCount : JSValue
  sampleCount : JSValue
  resourceUri : JSValue
  resourceUrl : JSValue
  columns : JSValue
  executedAt : JSValue
  expiresAt : JSValue

/-- JavaScript `a || b`. -/
def jsOr (a b : JSValue) : JSValue :=
  if truthy a then a else b

/-- `v?.length` (used as `structured.results?.length`). -/
def jsLength : JSValue → JSValue
  | .arr es => .num es.toList.length
  | .str s => .num s.length
  | _ => .undefined

/-- Normalization of a matched `structured` value
(dual-response.js lines 146-164). -/
def mkParsed (structured : JSValue) : DualParsed :=
  { sample := jsOr (getField structured "results") (.arr .nil)
    totalCount := jsOr (optField (getField structured "metadata") "total_count") (.num 0)
    sampleCount :=
      jsOr (optField (getField structured "metadata") "sample_count")
        (jsOr (jsLength (getField structured "results")) (.num 0))
    resourceUri := getField (getField structured "resource") "uri"
    resourceUrl := getField (getField structured "resource") "url"
    columns := jsOr (optField (getField structured "metadata") "columns") (.arr .nil)
    executedAt := optField (getField structured "metadata") "executed_at"
    expiresAt := optField (getField structured "metadata") "expires_at" }

/-- The final shape of `parse`'s search (dual-response.js lines
127-137): a bare string parsed as JSON with a truthy `resource.url`;
otherwise the `structured` variable stays `null`. -/
def stringShapeStructured : JSValue → JSValue
  | .str s =>
    (match parseJson s with
     | some parsed => if jsHasResUrl parsed then parsed else .null
     | none => .null)
  | _ => .null

/-- The `structured` value selected by `parse`'s ordered shape search
(dual-response.js lines 100-137); `.null` models the variable remaining
`null` when no shape matches. -/
def parseStructured (t : JSValue) : JSValue :=
  if truthy (optField (optField (optField t "structuredContent") "resource") "url")
  then optField t "structuredContent"
  else if truthy (optField (optField t "resource") "url") then t
  else if truthy (optField t "content") then
    (scanParse (contentItems (optField t "content"))).getD .null
  else stringShapeStructured t

/-- `DualResponseClient.parse` (dual-response.js lines 98-177): the same
ordered search as `isDualResponse` except that the content loop has no
`resource://` substring check; `null` (here `none`) when no shape
matches (the final `!structured?.resource?.url` guard).  No operation on
any path can raise, so the result needs no error channel. -/
def parse (t : JSValue) : Option DualParsed :=
  if truthy (optField (optField (parseStructured t) "resource") "url")
  then some (mkParsed (parseStructured t))
  else none

/-- Whether an item makes `isDualResponse`'s `resource://` substring check
fire: a text item whose `text` evaluates `includes('resource://')` to
`true`. -/
def uriHitItem (item : JSValue) : Bool :=
  isTextItem item &&
    (match includesResourceUri (optField item "text") with
     | .ok true => true
     | _ => false)

/-- Whether the value has a content item detected via the `resource://`
substring check (the detection path `parse` does not share). -/
def hasUriItem (t : JSValue) : Bool :=
  if truthy (optField t "content") then
    (contentItems (optField t "content")).any uriHitItem
  else false

/-- Whether the classifier raised. -/
def classifierThrew (r : Except Unit Bool) : Bool :=
  match r with
  | .error _ => true
  | .ok _ => false

end McpRlp

namespace McpRlp

/-! ## Drain round trip (claim C1 groundwork) -/

/-- Against the gateway serving an unchanged resource (`totalCount` equal
to the actual row count), the drain loop starting at any cursor position
collects exactly the remaining rows.  The cursor always advances by the
actual number of rows served, and the loop exits exactly when the served
`has_next` is false. -/
theorem fetchAllGo_pageServer {α : Type} (rows : List α) (B : Nat)
    (hB : 1 ≤ B ∨ rows = []) :
    ∀ (fuel skip : Nat) (acc : List α), skip ≤ rows.length →
      rows.length - skip < fuel →
      fetchAllGo (pageServer rows rows.length) B acc skip fuel =
        some (.ok (acc ++ rows.drop skip)) := by
  intro fuel
  induction fuel with
  | zero => intro skip acc _ hfuel; omega
  | succ f ih =>
    intro skip acc hskip _
    have hlen : ((rows.drop skip).take B).length = min B (rows.length - skip) := by
      simp [List.length_take, List.length_drop]
    simp only [fetchAllGo, pageServer, fetchE, getPage, sqlWindow]
    by_cases hnext : skip + ((rows.drop skip).take B).length < rows.length
    · have hdlB : ((rows.drop skip).take B).length = B := by
        rw [hlen] at hnext ⊢; omega
      have hB1 : 1 ≤ B := by
        rcases hB with h1 | hnil
        · exact h1
        · subst hnil; simp at hnext
      simp only [Option.isSome_some, Bool.true_and, decide_eq_true hnext, if_true]
      rw [hdlB]
      rw [ih (skip + B) (acc ++ (rows.drop skip).take B) (by omega) (by omega)]
      rw [List.append_assoc, List.drop_take_append_drop]
    · have hd : (rows.drop skip).take B = rows.drop skip := by
        apply List.take_of_length_le
        rw [List.length_drop]
        rw [hlen] at hnext
        omega
      simp only [Option.isSome_some, Bool.true_and, decide_eq_false hnext, if_false]
      rw [hd]
      simp

/-- Claim C1.  A resource whose underlying data is unchanged
(`totalCount = rows.length`), drained through the actual GET handler by
`fetchAll` with any positive batch size (every batch size in
{1, S, T, T+1} is positive, the sample size S being at least 1, except
B = T for the empty resource, which the `rows = []` alternative covers),
yields exactly the resource's rows — the right number, no duplicates, no
gaps.  The loop advances the cursor by the number of rows each batch
actually returned and stops exactly when the handler reports
`has_next = false`; no page count is precomputed (rows.length + 1 rounds
of fuel always suffice). -/
theorem fetchAll_roundtrip_exact {α : Type} (denote : String → List α)
    (s : Store) (g : String) (now : Nat) (r : StoredResource)
    (rows : List α) (B : Nat)
    (hr : storeLookup s g = some r) (hden : denote r.sql = rows)
    (htot : r.totalCount = rows.length) (hB : 1 ≤ B ∨ rows = []) :
    fetchAll (fun sk lim => (routerGet denote s g now sk lim).1) B
      (rows.length + 1) = some (.ok rows) := by
  have hsrv : (fun sk lim => (routerGet denote s g now sk lim).1) =
      pageServer rows rows.length := by
    funext sk lim
    simp [routerGet, storeGet, hr, pageServer, hden, htot]
  rw [fetchAll, hsrv, fetchAllGo_pageServer rows B hB (rows.length + 1) 0 []
    (Nat.zero_le _) (by omega)]
  simp

/-- Witness for claim C1: a three-row resource drained with batch size 2
through the gateway returns exactly its rows. -/
theorem fetchAll_roundtrip_exact_witness :
    fetchAll
      (fun sk lim =>
        (routerGet (fun _ => [(10 : Int), 20, 30])
          (storeCreate [] "g1" "SELECT x" 3 0) "g1" 1 sk lim).1) 2 4 =
      some (.ok [10, 20, 30]) :=
  fetchAll_roundtrip_exact (fun _ => [(10 : Int), 20, 30])
    (storeCreate [] "g1" "SELECT x" 3 0) "g1" 1
    { id := "g1", sql := "SELECT x", totalCount := 3, createdAt := 0,
      accessCount := 0, lastAccessedAt := none, expiresAt := none }
    [10, 20, 30] 2 (by decide) rfl rfl (Or.inl (by decide))

/-- The drain of the batch stream: joining the yielded batches gives
exactly what `fetchAll` accumulates, round for round — the two use the
same cursor logic, fetch by fetch. -/
theorem fetchAllGo_eq_join_stream {α : Type}
    (srv : Nat → Option Nat → GetReply α) (B : Nat) :
    ∀ (fuel skip : Nat) (acc : List α),
      fetchAllGo srv B acc skip fuel =
        Option.map (Except.map fun bs => acc ++ bs.flatten)
          (fetchStreamGo srv B skip fuel) := by
  intro fuel
  induction fuel with
  | zero => intro skip acc; rfl
  | succ f ih =>
    intro skip acc
    simp only [fetchAllGo, fetchStreamGo]
    cases hf : fetchE (srv skip (some B)) with
    | error m => simp [Except.map]
    | ok p =>
      by_cases hnext : p.has_next
      · simp only [hnext, if_true, ih (skip + p.data.length) (acc ++ p.data)]
        cases hs : fetchStreamGo srv B (skip + p.data.length) f with
        | none => simp
        | some e =>
          cases e with
          | error m => simp [Except.map]
          | ok bs => simp [Except.map]
      · simp [hnext, Except.map]

/-- Claim C9 (fetchStream modelled from the spec, which documents it while
`DualResponseClient` does not implement it).  First conjunct: for every
server, batch size, cursor and fuel, the batch stream follows the
identical cursor logic to `fetchAll` — joining its yielded batches yields
the drain's rows (and errors and non-termination agree round for round).
Second conjunct: against the gateway serving an unchanged resource, the
stream is finite — it terminates precisely through the `has_next = false`
exit — and its batches join to exactly the resource's rows; the
invocation starts its cursor at 0 by definition of `fetchStream`. -/
theorem fetchStream_lazy_batches {α : Type} (rows : List α) (B : Nat)
    (hB : 1 ≤ B ∨ rows = []) :
    (∀ (srv : Nat → Option Nat → GetReply α) (fuel skip : Nat) (acc : List α),
        fetchAllGo srv B acc skip fuel =
          Option.map (Except.map fun bs => acc ++ bs.flatten)
            (fetchStreamGo srv B skip fuel))
    ∧ ∃ bs, fetchStream (pageServer rows rows.length) B (rows.length + 1) =
          some (.ok bs) ∧ bs.flatten = rows := by
  constructor
  · intro srv fuel skip acc
    exact fetchAllGo_eq_join_stream srv B fuel skip acc
  · have hall := fetchAllGo_pageServer rows B hB (rows.length + 1) 0 []
      (Nat.zero_le _) (by omega)
    rw [fetchAllGo_eq_join_stream (pageServer rows rows.length) B
      (rows.length + 1) 0 []] at hall
    cases hs : fetchStreamGo (pageServer rows rows.length) B 0 (rows.length + 1) with
    | none => rw [hs] at hall; simp at hall
    | some e =>
      cases e with
      | error m => rw [hs] at hall; simp [Except.map] at hall
      | ok bs =>
        rw [hs] at hall
        simp [Except.map] at hall
        exact ⟨bs, hs, hall⟩

/-- Witness for claim C9: the three-row resource streamed with batch size
2 — the stream agrees with `fetchAll` and its batches join to the rows. -/
theorem fetchStream_lazy_batches_witness :
    (fetchAllGo (pageServer [(1 : Int), 2, 3] 3) 2 [] 0 4 =
      Option.map (Except.map fun bs => [] ++ bs.flatten)
        (fetchStreamGo (pageServer [(1 : Int), 2, 3] 3) 2 0 4))
    ∧ ∃ bs, fetchStream (pageServer [(1 : Int), 2, 3] 3) 2 4 =
        some (.ok bs) ∧ bs.flatten = [1, 2, 3] :=
  ⟨(fetchStream_lazy_batches [(1 : Int), 2, 3] 2 (Or.inl (by decide))).1
      (pageServer [(1 : Int), 2, 3] 3) 4 0 [],
   (fetchStream_lazy_batches [(1 : Int), 2, 3] 2 (Or.inl (by decide))).2⟩

/-- Claim C8.  First conjunct: `fetch` raises on every non-2xx gateway
reply (the gateway's error replies are its 404 and 500 JSON bodies), and
the raised message is the server's `message` whenever the body provides a
non-empty one.  Second conjunct: a drain whose current page request fails
aborts at once with exactly that fetch failure — whatever rows were
accumulated are discarded (the error result carries none), no retry is
attempted and no page is skipped, for every accumulator, cursor and
remaining fuel. -/
theorem fetch_error_propagation :
    (∀ (α : Type) (st : Nat) (e m : String), ¬(200 ≤ st ∧ st < 300) →
        ∃ msg, fetchE (GetReply.err (α := α) st e m) = .error msg ∧
          (m ≠ "" → msg = m))
    ∧ (∀ (α : Type) (srv : Nat → Option Nat → GetReply α)
        (B : Nat) (acc : List α) (skip fuel st : Nat) (e m : String),
        srv skip (some B) = .err st e m →
        fetchAllGo srv B acc skip (fuel + 1) =
          some (.error
            (if m = "" then "Fetch failed with status " ++ toString st else m))) := by
  constructor
  · intro α st e m _
    refine ⟨if m = "" then "Fetch failed with status " ++ toString st else m,
      rfl, fun hm => ?_⟩
    simp [hm]
  · intro α srv B acc skip fuel st e m h
    simp [fetchAllGo, h, fetchE]

/-- Witness for claim C8: the gateway's 404 reply raises with the server's
message, and a drain hitting a 500 on its first page aborts with `boom`. -/
theorem fetch_error_propagation_witness :
    (∃ msg,
        fetchE (GetReply.err (α := Int) 404 "not_found" "Resource not found or expired") =
          .error msg ∧
        ("Resource not found or expired" ≠ "" → msg = "Resource not found or expired"))
    ∧ fetchAllGo (fun _ _ => GetReply.err (α := Int) 500 "query_failed" "boom")
        1 [] 0 3 = some (.error "boom") :=
  ⟨fetch_error_propagation.1 Int 404 "not_found" "Resource not found or expired"
      (by decide),
   fetch_error_propagation.2 Int
      (fun _ _ => GetReply.err 500 "query_failed" "boom") 1 [] 0 2 500
      "query_failed" "boom" rfl⟩

/-- Claim C10.  `getMetadata` issues the GET-form read with no `skip` and
no `limit` (parsed by the gateway as `skip = 0`, `limit = null`), so for
an existing resource it resolves to the gateway's full page response: its
`data` is every row of the stored query, `returned_count` the full row
count, `has_next = false`, `has_prev = false`, and `total_count` the
resource's recorded count — not a data-free metadata summary. -/
theorem getMetadata_is_full_page {α : Type} (denote : String → List α)
    (s : Store) (g : String) (now : Nat) (r : StoredResource)
    (hr : storeLookup s g = some r) :
    getMetadataE (fun sk lim => (routerGet denote s g now sk lim).1) =
      .ok (getPage (denote r.sql) r.totalCount 0 none)
    ∧ (getPage (denote r.sql) r.totalCount 0 none).data = denote r.sql
    ∧ (getPage (denote r.sql) r.totalCount 0 none).returned_count =
        (denote r.sql).length
    ∧ (getPage (denote r.sql) r.totalCount 0 none).has_next = false
    ∧ (getPage (denote r.sql) r.totalCount 0 none).has_prev = false
    ∧ (getPage (denote r.sql) r.totalCount 0 none).total_count = r.totalCount := by
  refine ⟨?_, ?_, ?_, ?_, ?_, ?_⟩ <;>
    simp [getMetadataE, routerGet, storeGet, hr, getPage, sqlWindow]

/-- Witness for claim C10: metadata fetch of a concrete two-row resource
returns the full page. -/
theorem getMetadata_is_full_page_witness :
    getMetadataE
      (fun sk lim =>
        (routerGet (fun _ => [(7 : Int), 8])
          (storeCreate [] "g2" "SELECT y" 2 0) "g2" 5 sk lim).1) =
      .ok (getPage [(7 : Int), 8] 2 0 none)
    ∧ (getPage [(7 : Int), 8] 2 0 none).data = [7, 8]
    ∧ (getPage [(7 : Int), 8] 2 0 none).returned_count = 2
    ∧ (getPage [(7 : Int), 8] 2 0 none).has_next = false
    ∧ (getPage [(7 : Int), 8] 2 0 none).has_prev = false
    ∧ (getPage [(7 : Int), 8] 2 0 none).total_count = 2 :=
  getMetadata_is_full_page (fun _ => [(7 : Int), 8])
    (storeCreate [] "g2" "SELECT y" 2 0) "g2" 5
    { id := "g2", sql := "SELECT y", totalCount := 2, createdAt := 0,
      accessCount := 0, lastAccessedAt := none, expiresAt := none } rfl

/-! ## Global ordering of sorted pages (claim C2 groundwork) -/

theorem mem_insSorted {le : α → α → Bool} {a x : α} :
    ∀ {l : List α}, x ∈ insSorted le a l ↔ x = a ∨ x ∈ l := by
  intro l
  induction l with
  | nil => simp [insSorted]
  | cons b t ih =>
    simp only [insSorted]
    by_cases hab : le a b
    · rw [if_pos hab]
      simp only [List.mem_cons]
    · rw [if_neg hab]
      simp only [List.mem_cons, ih]
      tauto

theorem pairwise_insSorted {le : α → α → Bool}
    (htot : ∀ a b, le a b = true ∨ le b a = true)
    (htrans : ∀ a b c, le a b = true → le b c = true → le a c = true)
    {a : α} {l : List α} (h : l.Pairwise fun x y => le x y = true) :
    (insSorted le a l).Pairwise fun x y => le x y = true := by
  induction l with
  | nil => simp [insSorted]
  | cons b t ih =>
    rw [List.pairwise_cons] at h
    obtain ⟨hb, ht⟩ := h
    simp only [insSorted]
    by_cases hab : le a b
    · rw [if_pos hab, List.pairwise_cons]
      refine ⟨?_, List.pairwise_cons.2 ⟨hb, ht⟩⟩
      intro c hc
      rcases List.mem_cons.1 hc with rfl | hct
      · exact hab
      · exact htrans a b c hab (hb c hct)
    · rw [if_neg hab, List.pairwise_cons]
      refine ⟨?_, ih ht⟩
      intro c hc
      rcases mem_insSorted.1 hc with rfl | hct
      · rcases htot c b with h1 | h2
        · exact absurd h1 hab
        · exact h2
      · exact hb c hct

theorem pairwise_sortByLe {le : α → α → Bool}
    (htot : ∀ a b, le a b = true ∨ le b a = true)
    (htrans : ∀ a b c, le a b = true → le b c = true → le a c = true)
    (l : List α) :
    (sortByLe le l).Pairwise fun x y => le x y = true := by
  induction l with
  | nil => simp [sortByLe]
  | cons a t ih => exact pairwise_insSorted htot htrans ih

/-- Two windows of a pairwise-related list, the first ending no later than
the second begins, are related elementwise. -/
theorem pairwise_window {R : α → α → Prop} {s : List α} (h : s.Pairwise R)
    (o1 l1 o2 l2 : Nat) (h12 : o1 + l1 ≤ o2) {a b : α}
    (ha : a ∈ (s.drop o1).take l1) (hb : b ∈ (s.drop o2).take l2) : R a b := by
  have ha' : a ∈ s.take (o1 + l1) := by
    rw [List.take_drop o1 l1 s] at ha
    exact List.mem_of_mem_drop ha
  have hb' : b ∈ s.drop (o1 + l1) := by
    have hb1 : b ∈ s.drop o2 := List.mem_of_mem_take hb
    have heq : s.drop o2 = (s.drop (o1 + l1)).drop (o2 - (o1 + l1)) := by
      rw [List.drop_drop]
      congr 1
      omega
    rw [heq] at hb1
    exact List.mem_of_mem_drop hb1
  have hsplit := List.take_append_drop (o1 + l1) s
  rw [← hsplit, List.pairwise_append] at h
  exact h.2.2 a ha' b hb'

/-- Claim C2.  The POST handler wraps the stored query in an outer
`ORDER BY "field" DESC` before applying limit/offset, so sorting is global
over the full logical result: whenever one page's window ends no later
than another's begins (as happens between an earlier and a later page of a
drain), every row of the earlier page is at least every row of the later
page in the sorted field. -/
theorem post_sort_desc_global {α : Type} (rows : List α) (total : Nat)
    (proj : α → Int) (o1 l1 o2 l2 : Nat) (h12 : o1 + l1 ≤ o2) (r1 r2 : α)
    (h1 : r1 ∈ (postPage rows total (some ⟨proj, some "desc"⟩) o1 l1).data)
    (h2 : r2 ∈ (postPage rows total (some ⟨proj, some "desc"⟩) o2 l2).data) :
    proj r2 ≤ proj r1 := by
  have hle : leOfSort proj (some "desc") = fun a b => decide (proj b ≤ proj a) := by
    simp [leOfSort, descRequested]
  have htot : ∀ a b : α, (leOfSort proj (some "desc")) a b = true ∨
      (leOfSort proj (some "desc")) b a = true := by
    intro a b
    rw [hle]
    rcases Int.le_total (proj a) (proj b) with h | h
    · exact Or.inr (decide_eq_true h)
    · exact Or.inl (decide_eq_true h)
  have htrans : ∀ a b c : α, (leOfSort proj (some "desc")) a b = true →
      (leOfSort proj (some "desc")) b c = true →
      (leOfSort proj (some "desc")) a c = true := by
    intro a b c hab hbc
    rw [hle] at hab hbc ⊢
    exact decide_eq_true (le_trans (of_decide_eq_true hbc) (of_decide_eq_true hab))
  have hp := pairwise_sortByLe htot htrans rows
  simp only [postPage] at h1 h2
  have := pairwise_window hp o1 l1 o2 l2 h12 h1 h2
  rw [hle] at this
  exact of_decide_eq_true this

/-- Witness for claim C2: rows `[1, 3, 2]` sorted descending; the first
page (offset 0, limit 2) holds `[3, 2]`, the second (offset 2) holds
`[1]`; the later row is at most the earlier one. -/
theorem post_sort_desc_global_witness : (1 : Int) ≤ 2 :=
  post_sort_desc_global [(1 : Int), 3, 2] 3 (fun r => r) 0 2 2 1
    (by decide) 2 1 (by decide) (by decide)

/-! ## has_next (claim C3) -/

theorem length_insSorted (le : α → α → Bool) (a : α) :
    ∀ l : List α, (insSorted le a l).length = l.length + 1 := by
  intro l
  induction l with
  | nil => rfl
  | cons b t ih =>
    simp only [insSorted]
    by_cases hab : le a b
    · rw [if_pos hab]; rfl
    · rw [if_neg hab]; simp [ih]

theorem length_sortByLe (le : α → α → Bool) :
    ∀ l : List α, (sortByLe le l).length = l.length := by
  intro l
  induction l with
  | nil => rfl
  | cons a t ih => simp [sortByLe, length_insSorted, ih]

/-- Counterexample to claim C3 as stated: a one-row resource requested
with `skip = 2` (beyond `total_count`) has `has_next = false` yet
`skip + returned_count = 2 ≠ 1 = total_count`, in both the GET form (with
`limit = 1`) and the POST form (`offset = 2`); the claimed
if-and-only-if fails in the only-if direction. -/
theorem hasNext_iff_equality_counterexample :
    (¬(((getPage [(0 : Int)] 1 2 (some 1)).has_next = false) ↔
        2 + (getPage [(0 : Int)] 1 2 (some 1)).returned_count = 1))
    ∧ (¬(((postPage [(0 : Int)] 1 none 2 1).has_next = false) ↔
        2 + (postPage [(0 : Int)] 1 none 2 1).returned_count = 1)) := by
  decide

/-- Claim C3, amended.  `has_next` is false iff the limit is absent (GET
form) or `skip + returned_count ≥ total_count` (resp.
`offset + returned_count ≥ total_count` for POST); when the request stays
within the data — `skip`/`offset` at most the row count, the recorded
`total_count` equal to the actual row count and, in the GET form, `limit`
present — this coincides with the claimed equality
`skip + returned_count = total_count`. -/
theorem hasNext_false_iff_amended {α : Type} :
    (∀ (rows : List α) (total skip : Nat) (limit : Option Nat),
        (getPage rows total skip limit).has_next = false ↔
          (limit = none ∨
            total ≤ skip + (getPage rows total skip limit).returned_count))
    ∧ (∀ (rows : List α) (skip l : Nat), skip ≤ rows.length →
        ((getPage rows rows.length skip (some l)).has_next = false ↔
          skip + (getPage rows rows.length skip (some l)).returned_count =
            rows.length))
    ∧ (∀ (rows : List α) (total : Nat) (sort : Option (SortSpec α))
        (offset limit : Nat),
        (postPage rows total sort offset limit).has_next = false ↔
          total ≤ offset + (postPage rows total sort offset limit).returned_count)
    ∧ (∀ (rows : List α) (sort : Option (SortSpec α)) (offset limit : Nat),
        offset ≤ rows.length →
        ((postPage rows rows.length sort offset limit).has_next = false ↔
          offset + (postPage rows rows.length sort offset limit).returned_count =
            rows.length)) := by
  refine ⟨?_, ?_, ?_, ?_⟩
  · intro rows total skip limit
    cases limit with
    | none => simp [getPage, sqlWindow]
    | some l =>
      simp only [getPage, sqlWindow, Option.isSome_some, Bool.true_and,
        decide_eq_false_iff_not, Nat.not_lt]
      constructor
      · intro h; exact Or.inr h
      · rintro (h | h)
        · cases h
        · exact h
  · intro rows skip l hskip
    simp only [getPage, sqlWindow, Option.isSome_some, Bool.true_and,
      decide_eq_false_iff_not, Nat.not_lt, List.length_take, List.length_drop]
    omega
  · intro rows total sort offset limit
    simp only [postPage, decide_eq_false_iff_not, Nat.not_lt]
  · intro rows sort offset limit hoff
    have hbase : (match sort with
        | some sp => sortByLe (leOfSort sp.proj sp.order) rows
        | none => rows).length = rows.length := by
      cases sort with
      | none => rfl
      | some sp => exact length_sortByLe _ rows
    simp only [postPage, decide_eq_false_iff_not, Nat.not_lt,
      List.length_take, List.length_drop, hbase]
    omega

/-- Witness for the amended claim C3: within-range requests on a two-row
resource where the equality form of the iff holds. -/
theorem hasNext_false_iff_amended_witness :
    (((getPage [(0 : Int), 1] 2 1 (some 5)).has_next = false) ↔
      1 + (getPage [(0 : Int), 1] 2 1 (some 5)).returned_count = 2)
    ∧ (((postPage [(0 : Int), 1] 2 none 1 5).has_next = false) ↔
      1 + (postPage [(0 : Int), 1] 2 none 1 5).returned_count = 2) :=
  ⟨hasNext_false_iff_amended.2.1 [(0 : Int), 1] 1 5 (by decide),
   hasNext_false_iff_amended.2.2.2 [(0 : Int), 1] none 1 5 (by decide)⟩

/-! ## Registry lookup lemmas (claims C6, C7 groundwork) -/

theorem storeLookup_cons_pos {p : String × StoredResource}
    {g : String} (hp : p.1 = g) (t : List (String × StoredResource)) :
    storeLookup (p :: t) g = some p.2 := by
  rw [storeLookup, List.find?_cons_of_pos _ (by simpa using hp)]
  rfl

theorem storeLookup_cons_neg {p : String × StoredResource}
    {g : String} (hp : ¬p.1 = g) (t : List (String × StoredResource)) :
    storeLookup (p :: t) g = storeLookup t g := by
  rw [storeLookup, List.find?_cons_of_neg _ (by simpa using hp)]
  rfl

theorem storeLookup_create_ne {g' g : String} (h : g' ≠ g)
    (s : Store) (sql : String) (total now : Nat) :
    storeLookup (storeCreate s g' sql total now) g = storeLookup s g := by
  rw [storeCreate, storeLookup_cons_neg h]

theorem storeLookup_update_of_mem {g : String} (r : StoredResource) :
    ∀ s : Store, (storeLookup s g).isSome →
      storeLookup (storeUpdate s g r) g = some r := by
  intro s
  induction s with
  | nil => intro h; cases h
  | cons p t ih =>
    intro h
    by_cases hp : p.1 = g
    · rw [storeUpdate, List.map_cons, if_pos hp, storeLookup_cons_pos rfl]
    · rw [storeUpdate, List.map_cons, if_neg hp, storeLookup_cons_neg hp]
      rw [storeLookup_cons_neg hp] at h
      exact ih h

theorem storeLookup_update_ne {g' g : String} (h : g' ≠ g) (r : StoredResource) :
    ∀ s : Store, storeLookup (storeUpdate s g' r) g = storeLookup s g := by
  intro s
  induction s with
  | nil => rfl
  | cons p t ih =>
    by_cases hp : p.1 = g'
    · have hpg : ¬p.1 = g := by rw [hp]; exact h
      rw [storeUpdate, List.map_cons, if_pos hp,
        storeLookup_cons_neg (show ¬(g', r).1 = g from h),
        storeLookup_cons_neg hpg]
      exact ih
    · by_cases hg : p.1 = g
      · rw [storeUpdate, List.map_cons, if_neg hp, storeLookup_cons_pos hg,
          storeLookup_cons_pos hg]
      · rw [storeUpdate, List.map_cons, if_neg hp, storeLookup_cons_neg hg,
          storeLookup_cons_neg hg]
        exact ih

theorem storeLookup_delete_self (g : String) :
    ∀ s : Store, storeLookup (storeDelete s g).2 g = none := by
  intro s
  induction s with
  | nil => rfl
  | cons p t ih =>
    by_cases hp : p.1 = g
    · rw [storeDelete, List.filter_cons, if_neg (by simp [hp])]
      exact ih
    · rw [storeDelete, List.filter_cons, if_pos (by simp [hp]),
        storeLookup_cons_neg hp]
      exact ih

theorem storeLookup_delete_ne {g' g : String} (h : g' ≠ g) :
    ∀ s : Store, storeLookup (storeDelete s g').2 g = storeLookup s g := by
  intro s
  induction s with
  | nil => rfl
  | cons p t ih =>
    by_cases hp : p.1 = g'
    · have hpg : ¬p.1 = g := by rw [hp]; exact h
      rw [storeDelete, List.filter_cons, if_neg (by simp [hp]),
        storeLookup_cons_neg hpg]
      exact ih
    · by_cases hg : p.1 = g
      · rw [storeDelete, List.filter_cons, if_pos (by simp [hp]),
          storeLookup_cons_pos hg, storeLookup_cons_pos hg]
      · rw [storeDelete, List.filter_cons, if_pos (by simp [hp]),
          storeLookup_cons_neg hg, storeLookup_cons_neg hg]
        exact ih

theorem storeGet_snd_ne {g' g : String} (h : g' ≠ g) (s : Store) (now : Nat) :
    storeLookup (storeGet s g' now).2 g = storeLookup s g := by
  unfold storeGet
  cases hl : storeLookup s g' with
  | none => rfl
  | some r => exact storeLookup_update_ne h _ s

theorem storeAny_false_of_lookup_none {g : String} :
    ∀ s : Store, storeLookup s g = none →
      (s.any fun p => decide (p.1 = g)) = false := by
  intro s
  induction s with
  | nil => intro _; rfl
  | cons p t ih =>
    intro h
    by_cases hp : p.1 = g
    · rw [storeLookup_cons_pos hp] at h
      cases h
    · rw [storeLookup_cons_neg hp] at h
      rw [List.any_cons, decide_eq_false hp, Bool.false_or]
      exact ih h

/-- An id bound to no entry stays unbound across any operation sequence in
which no create generates that id (generated ids are globally unique). -/
theorem lookup_none_stays {g : String} :
    ∀ (ops : List StoreOp) (s : Store),
      (∀ op ∈ ops, createsGuid g op = false) →
      storeLookup s g = none → storeLookup (runOps s ops) g = none := by
  intro ops
  induction ops with
  | nil => intro s _ h; exact h
  | cons op rest ih =>
    intro s hops h
    have hop := hops op (List.mem_cons_self op rest)
    have hrest : ∀ o ∈ rest, createsGuid g o = false := fun o ho =>
      hops o (List.mem_cons_of_mem op ho)
    have hstep : storeLookup (applyOp s op) g = none := by
      cases op with
      | create g' sql total now =>
        have hne : g' ≠ g := by
          simpa [createsGuid] using hop
        rw [applyOp, storeLookup_create_ne hne]
        exact h
      | get g' now =>
        by_cases hg : g' = g
        · subst hg
          rw [applyOp, storeGet, h]
          exact h
        · rw [applyOp, storeGet_snd_ne hg]
          exact h
      | delete g' =>
        by_cases hg : g' = g
        · subst hg
          exact storeLookup_delete_self g' s
        · rw [applyOp, storeLookup_delete_ne hg]
          exact h
      | listOp => exact h
      | statsOp => exact h
    exact ih (applyOp s op) hrest hstep

/-- Claim C7.  Once `delete` removes a resource, every subsequent
operation on that id — registry `get`, and the gateway's GET, POST and
DELETE — reports NotFound (404 `not_found`) after any further sequence of
registry operations, provided no later create generates the same id
(generated ids are globally unique UUIDs); a gateway page or delete
request acts on the store exactly through `storeGet`/`storeDelete`, so
`runOps` sequences cover them.  No operation resurrects the id and no
prior success is cached. -/
theorem deleted_id_permanently_not_found {α : Type} (denote : String → List α)
    (s : Store) (g : String) (ops : List StoreOp)
    (hops : ∀ op ∈ ops, createsGuid g op = false)
    (now skip : Nat) (limit : Option Nat) (sort : Option (SortSpec α))
    (offset lim2 : Nat) :
    storeLookup (runOps (storeDelete s g).2 ops) g = none
    ∧ (storeGet (runOps (storeDelete s g).2 ops) g now).1 = none
    ∧ (routerGet denote (runOps (storeDelete s g).2 ops) g now skip limit).1 =
        .err 404 "not_found" "Resource not found or expired"
    ∧ (routerPost denote (runOps (storeDelete s g).2 ops) g now sort offset lim2).1 =
        .err 404 "not_found" "Resource not found or expired"
    ∧ (routerDelete (runOps (storeDelete s g).2 ops) g).1 =
        .err 404 "not_found" "Resource not found" := by
  have h2 : storeLookup (runOps (storeDelete s g).2 ops) g = none :=
    lookup_none_stays ops (storeDelete s g).2 hops (storeLookup_delete_self g s)
  refine ⟨h2, ?_, ?_, ?_, ?_⟩
  · rw [storeGet, h2]
  · rw [routerGet, storeGet, h2]
  · rw [routerPost, storeGet, h2]
  · have hany := storeAny_false_of_lookup_none _ h2
    rw [routerDelete]
    simp only [storeDelete] at hany ⊢
    simp [hany]

/-- Witness for claim C7: a created-then-deleted resource stays 404
through a later get, an unrelated create and an unrelated delete. -/
theorem deleted_id_permanently_not_found_witness :
    storeLookup
      (runOps (storeDelete (storeCreate [] "a" "Q" 1 0) "a").2
        [.get "a" 5, .create "b" "R" 2 6, .delete "b"]) "a" = none
    ∧ (storeGet
        (runOps (storeDelete (storeCreate [] "a" "Q" 1 0) "a").2
          [.get "a" 5, .create "b" "R" 2 6, .delete "b"]) "a" 9).1 = none
    ∧ (routerGet (fun _ => [(0 : Int)])
        (runOps (storeDelete (storeCreate [] "a" "Q" 1 0) "a").2
          [.get "a" 5, .create "b" "R" 2 6, .delete "b"]) "a" 9 0 none).1 =
        .err 404 "not_found" "Resource not found or expired"
    ∧ (routerPost (fun _ => [(0 : Int)])
        (runOps (storeDelete (storeCreate [] "a" "Q" 1 0) "a").2
          [.get "a" 5, .create "b" "R" 2 6, .delete "b"]) "a" 9 none 0 100).1 =
        .err 404 "not_found" "Resource not found or expired"
    ∧ (routerDelete
        (runOps (storeDelete (storeCreate [] "a" "Q" 1 0) "a").2
          [.get "a" 5, .create "b" "R" 2 6, .delete "b"]) "a").1 =
        .err 404 "not_found" "Resource not found" :=
  deleted_id_permanently_not_found (fun _ => [(0 : Int)])
    (storeCreate [] "a" "Q" 1 0) "a"
    [.get "a" 5, .create "b" "R" 2 6, .delete "b"] (by decide) 9 0 none none 0 100

/-! ## Access counting (claim C6) -/

/-- The wall-clock reading an operation consumes, if any. -/
def opClock : StoreOp → Option Nat
  | .create _ _ _ now => some now
  | .get _ now => some now
  | _ => none

/-- The clock readings of a sequence are at least `t` and non-decreasing
(the wall clock does not run backwards across the sequence). -/
def clockLB (t : Nat) : List StoreOp → Prop
  | [] => True
  | op :: rest =>
    match opClock op with
    | some n => t ≤ n ∧ clockLB n rest
    | none => clockLB t rest

/-- Across any operation sequence that never re-creates the id `g` and
whose clock readings are non-decreasing from a bound on the entry's last
access, the entry's `accessCount` never decreases and its
`lastAccessedAt` never moves backwards. -/
theorem accessCount_mono_runOps {g : String} :
    ∀ (ops : List StoreOp) (s : Store) (r0 : StoredResource) (t : Nat),
      (∀ op ∈ ops, createsGuid g op = false) →
      storeLookup s g = some r0 →
      (∀ t0, r0.lastAccessedAt = some t0 → t0 ≤ t) →
      clockLB t ops →
      ∀ r1, storeLookup (runOps s ops) g = some r1 →
        r0.accessCount ≤ r1.accessCount ∧
        (∀ t0 t1, r0.lastAccessedAt = some t0 → r1.lastAccessedAt = some t1 →
          t0 ≤ t1) := by
  intro ops
  induction ops with
  | nil =>
    intro s r0 t _ h0 _ _ r1 h1
    rw [runOps, List.foldl_nil, h0] at h1
    cases h1
    exact ⟨Nat.le_refl _, fun t0 t1 e0 e1 => by rw [e0] at e1; cases e1; omega⟩
  | cons op rest ih =>
    intro s r0 t hops h0 hlb hclock r1 h1
    have hop := hops op (List.mem_cons_self op rest)
    have hrest : ∀ o ∈ rest, createsGuid g o = false := fun o ho =>
      hops o (List.mem_cons_of_mem op ho)
    rw [runOps, List.foldl_cons] at h1
    cases op with
    | create g' sql total now =>
      have hne : g' ≠ g := by simpa [createsGuid] using hop
      obtain ⟨htn, hcr⟩ : t ≤ now ∧ clockLB now rest := hclock
      have h0' : storeLookup (applyOp s (.create g' sql total now)) g = some r0 := by
        rw [applyOp, storeLookup_create_ne hne]; exact h0
      exact ih _ r0 now hrest h0' (fun t0 e => le_trans (hlb t0 e) htn) hcr r1 h1
    | get g' now =>
      obtain ⟨htn, hcr⟩ : t ≤ now ∧ clockLB now rest := hclock
      by_cases hg : g' = g
      · subst hg
        have happ : applyOp s (.get g' now) =
            storeUpdate s g' { r0 with accessCount := r0.accessCount + 1,
                                       lastAccessedAt := some now } := by
          rw [applyOp, storeGet, h0]
        have h0' : storeLookup (applyOp s (.get g' now)) g' =
            some { r0 with accessCount := r0.accessCount + 1,
                           lastAccessedAt := some now } := by
          rw [happ]
          exact storeLookup_update_of_mem _ s (by rw [h0]; rfl)
        have := ih _ _ now hrest h0'
          (fun t0 e => by cases e; exact Nat.le_refl _) hcr r1 h1
        refine ⟨le_trans (Nat.le_succ _) this.1, fun t0 t1 e0 e1 => ?_⟩
        have hn1 : now ≤ t1 := this.2 now t1 rfl e1
        exact le_trans (le_trans (hlb t0 e0) htn) hn1
      · have h0' : storeLookup (applyOp s (.get g' now)) g = some r0 := by
          rw [applyOp, storeGet_snd_ne hg]; exact h0
        exact ih _ r0 now hrest h0' (fun t0 e => le_trans (hlb t0 e) htn) hcr r1 h1
    | delete g' =>
      have hcr : clockLB t rest := hclock
      by_cases hg : g' = g
      · subst hg
        have hnone : storeLookup (runOps (applyOp s (.delete g')) rest) g' = none := by
          apply lookup_none_stays rest _ hrest
          rw [applyOp]
          exact storeLookup_delete_self g' s
        rw [runOps] at hnone
        rw [hnone] at h1
        cases h1
      · have h0' : storeLookup (applyOp s (.delete g')) g = some r0 := by
          rw [applyOp, storeLookup_delete_ne hg]; exact h0
        exact ih _ r0 t hrest h0' hlb hcr r1 h1
    | listOp =>
      exact ih _ r0 t hrest h0 hlb hclock r1 h1
    | statsOp =>
      exact ih _ r0 t hrest h0 hlb hclock r1 h1

/-- Claim C6.  First conjunct: each `get` on a bound id returns and
re-binds the entry with `accessCount` incremented by exactly one and
`lastAccessedAt` set to the current clock reading.  Second conjunct:
across every sequence of registry operations (create/get/delete and the
read-only list/stats) with non-decreasing clock readings and no re-use of
the id by a later create, the entry's `accessCount` never decreases (and
its `lastAccessedAt` timestamp never moves backwards). -/
theorem get_bumps_accessCount_monotone :
    (∀ (s : Store) (g : String) (now : Nat) (r : StoredResource),
        storeLookup s g = some r →
        (storeGet s g now).1 =
          some { r with accessCount := r.accessCount + 1,
                        lastAccessedAt := some now }
        ∧ storeLookup (storeGet s g now).2 g =
          some { r with accessCount := r.accessCount + 1,
                        lastAccessedAt := some now })
    ∧ (∀ (g : String) (ops : List StoreOp) (s : Store) (r0 : StoredResource)
        (t : Nat),
        (∀ op ∈ ops, createsGuid g op = false) →
        storeLookup s g = some r0 →
        (∀ t0, r0.lastAccessedAt = some t0 → t0 ≤ t) →
        clockLB t ops →
        ∀ r1, storeLookup (runOps s ops) g = some r1 →
          r0.accessCount ≤ r1.accessCount ∧
          (∀ t0 t1, r0.lastAccessedAt = some t0 → r1.lastAccessedAt = some t1 →
            t0 ≤ t1)) := by
  constructor
  · intro s g now r hr
    constructor
    · rw [storeGet, hr]
    · rw [storeGet, hr]
      exact storeLookup_update_of_mem _ s (by rw [hr]; rfl)
  · intro g ops s r0 t hops h0 hlb hclock r1 h1
    exact accessCount_mono_runOps ops s r0 t hops h0 hlb hclock r1 h1

/-- Witness for claim C6: a concrete store where a `get` bumps the count
from 0 to 1 and sets the timestamp, and a one-get sequence under a
monotone clock keeps the count non-decreasing. -/
theorem get_bumps_accessCount_monotone_witness :
    ((storeGet (storeCreate [] "a" "Q" 1 0) "a" 7).1 =
      some { id := "a", sql := "Q", totalCount := 1, createdAt := 0,
             accessCount := 1, lastAccessedAt := some 7, expiresAt := none }
    ∧ storeLookup (storeGet (storeCreate [] "a" "Q" 1 0) "a" 7).2 "a" =
      some { id := "a", sql := "Q", totalCount := 1, createdAt := 0,
             accessCount := 1, lastAccessedAt := some 7, expiresAt := none })
    ∧ ((0 : Nat) ≤ 1 ∧
        (∀ t0 t1 : Nat, (none : Option Nat) = some t0 →
          (some 5 : Option Nat) = some t1 → t0 ≤ t1)) :=
  ⟨get_bumps_accessCount_monotone.1 (storeCreate [] "a" "Q" 1 0) "a" 7
      { id := "a", sql := "Q", totalCount := 1, createdAt := 0,
        accessCount := 0, lastAccessedAt := none, expiresAt := none } rfl,
   get_bumps_accessCount_monotone.2 "a" [.get "a" 5]
      (storeCreate [] "a" "Q" 1 0)
      { id := "a", sql := "Q", totalCount := 1, createdAt := 0,
        accessCount := 0, lastAccessedAt := none, expiresAt := none } 3
      (by decide) rfl (fun t0 e => by cases e) ⟨by omega, trivial⟩
      { id := "a", sql := "Q", totalCount := 1, createdAt := 0,
        accessCount := 1, lastAccessedAt := some 5, expiresAt := none } rfl⟩

/-! ## Classifier claims (C4, C5) -/

/-- Claim C4, evaluated at its failing input.  On
`{content: [{type: 'text', text: 42}]}` the isDualResponse content loop
evaluates `item?.text?.includes('resource://')` with a non-nullish,
non-string `text`: `(42).includes` is `undefined` and the call raises a
`TypeError` — the classifier throws, contrary to the claim that it never
does.  (`parse`, whose loop only attempts `JSON.parse`, returns null
without throwing on the same input.) -/
theorem isDualResponse_throws_on_numeric_text :
    isDualResponse
      (jobj [("content", jarr [jobj [("type", .str "text"), ("text", .num 42)]])]) =
      .error ()
    ∧ (parse
        (jobj [("content", jarr [jobj [("type", .str "text"), ("text", .num 42)]])])).isNone =
      true :=
  ⟨rfl, rfl⟩

/-- Counterexample to claim C5 as stated: on
`{content: [{type: 'text', text: 'resource://abc'}]}` the classifier's
`resource://` substring check fires, so `isDualResponse` returns true,
while `parse` — which has no such check — fails to parse the text as JSON
and returns null. -/
theorem isDualResponse_true_parse_null_counterexample :
    isDualResponse
      (jobj [("content",
        jarr [jobj [("type", .str "text"), ("text", .str "resource://abc")]])]) =
      .ok true
    ∧ (parse
        (jobj [("content",
          jarr [jobj [("type", .str "text"), ("text", .str "resource://abc")]])])).isNone =
      true :=
  ⟨rfl, rfl⟩

theorem scanParse_some_url :
    ∀ (items : List JSValue) (parsed : JSValue),
      scanParse items = some parsed → jsHasResUrl parsed = true := by
  intro items
  induction items with
  | nil => intro parsed h; cases h
  | cons item rest ih =>
    intro parsed h
    rw [scanParse] at h
    by_cases htext : isTextItem item
    · rw [if_pos htext] at h
      cases hj : jsonParseJS (optField item "text") with
      | none => simp only [hj] at h; exact ih parsed h
      | some q =>
        simp only [hj] at h
        by_cases hurl : jsHasResUrl q
        · rw [if_pos hurl] at h
          cases h
          exact hurl
        · rw [if_neg hurl] at h
          exact ih parsed h
    · rw [if_neg htext] at h
      exact ih parsed h

/-- On any item list on which the isDualResponse content loop does not
throw, it reports a hit exactly when either some text item's string
contains `resource://` or the parse loop finds a JSON value with a truthy
`resource.url`. -/
theorem scanIsDR_ok_iff :
    ∀ items : List JSValue, scanIsDR items ≠ .error () →
      (scanIsDR items = .ok true ↔
        (items.any uriHitItem = true ∨ (scanParse items).isSome = true)) := by
  intro items
  induction items with
  | nil =>
    intro _
    simp [scanIsDR, scanParse]
  | cons item rest ih =>
    intro h
    rw [scanIsDR] at h ⊢
    rw [scanParse, List.any_cons]
    by_cases htext : isTextItem item
    · simp only [if_pos htext] at h ⊢
      cases hinc : includesResourceUri (optField item "text") with
      | error e =>
        simp only [hinc] at h
        cases e
        exact absurd rfl h
      | ok b =>
        simp only [hinc] at h ⊢
        cases b with
        | true =>
          have huri : uriHitItem item = true := by
            simp [uriHitItem, htext, hinc]
          simp [huri]
        | false =>
          have huri : uriHitItem item = false := by
            simp [uriHitItem, htext, hinc]
          rw [huri, Bool.false_or]
          cases hj : jsonParseJS (optField item "text") with
          | none =>
            simp only [hj] at h ⊢
            exact ih h
          | some q =>
            simp only [hj] at h ⊢
            by_cases hurl : jsHasResUrl q
            · simp only [if_pos hurl] at h ⊢
              simp
            · simp only [if_neg hurl] at h ⊢
              exact ih h
    · simp only [if_neg htext] at h ⊢
      have huri : uriHitItem item = false := by
        simp [uriHitItem, htext]
      rw [huri, Bool.false_or]
      exact ih h

theorem truthy_content_not_str {t : JSValue}
    (hc : truthy (optField t "content") = true) : ∀ s : String, t ≠ .str s := by
  intro s hs
  subst hs
  simp [optField, getField, truthy] at hc

/-- Claim C5, amended.  On every input on which `isDualResponse` does not
throw, it returns true exactly when `parse` returns a non-null record or
some content item is a text item whose `text` passes the
`includes('resource://')` substring check — the one detection path
`isDualResponse` has and `parse` lacks.  In particular `parse` non-null
always implies `isDualResponse` true, and the two agree on every value
without such a `resource://`-bearing text item. -/
theorem isDualResponse_true_iff_amended (t : JSValue)
    (h : classifierThrew (isDualResponse t) = false) :
    (isDualResponse t = .ok true ↔
      ((parse t).isSome = true ∨ hasUriItem t = true)) := by
  by_cases hb1 : truthy
      (optField (optField (optField t "structuredContent") "resource") "url") = true
  · have hdr : isDualResponse t = .ok true := by
      rw [isDualResponse, if_pos hb1]
    have hps : parseStructured t = optField t "structuredContent" := by
      rw [parseStructured, if_pos hb1]
    have hp : (parse t).isSome = true := by
      rw [parse, hps, if_pos hb1]
      rfl
    simp [hdr, hp]
  · by_cases hb2 : truthy (optField (optField t "resource") "url") = true
    · have hdr : isDualResponse t = .ok true := by
        rw [isDualResponse, if_neg hb1, if_pos hb2]
      have hps : parseStructured t = t := by
        rw [parseStructured, if_neg hb1, if_pos hb2]
      have hp : (parse t).isSome = true := by
        rw [parse, hps, if_pos hb2]
        rfl
      simp [hdr, hp]
    · by_cases hc : truthy (optField t "content") = true
      · cases hscan : scanIsDR (contentItems (optField t "content")) with
        | error e =>
          exfalso
          cases e
          have hthrew : classifierThrew (isDualResponse t) = true := by
            simp only [isDualResponse, if_neg hb1, if_neg hb2, if_pos hc, hscan, afterContent]
            rfl
          rw [hthrew] at h
          exact Bool.noConfusion h
        | ok b =>
          have hne : scanIsDR (contentItems (optField t "content")) ≠ .error () := by
            rw [hscan]
            simp
          have hiff := scanIsDR_ok_iff (contentItems (optField t "content")) hne
          cases b with
          | true =>
            have hdr : isDualResponse t = .ok true := by
              simp only [isDualResponse, if_neg hb1, if_neg hb2, if_pos hc, hscan, afterContent]
            rcases hiff.mp hscan with hany | hsp
            · have hhas : hasUriItem t = true := by
                rw [hasUriItem, if_pos hc]
                exact hany
              simp [hdr, hhas]
            · obtain ⟨parsed, hparsed⟩ := Option.isSome_iff_exists.mp hsp
              have hurl := scanParse_some_url _ parsed hparsed
              rw [jsHasResUrl] at hurl
              have hps : parseStructured t = parsed := by
                rw [parseStructured, if_neg hb1, if_neg hb2, if_pos hc, hparsed]
                rfl
              have hp : (parse t).isSome = true := by
                rw [parse, hps, if_pos hurl]
                rfl
              simp [hdr, hp]
          | false =>
            have hdr : isDualResponse t = .ok false := by
              simp only [isDualResponse, if_neg hb1, if_neg hb2, if_pos hc, hscan, afterContent]
              cases t with
              | str s => exact absurd rfl (truthy_content_not_str hc s)
              | undefined => rfl
              | null => rfl
              | bool b => rfl
              | num n => rfl
              | arr es => rfl
              | obj fs => rfl
            have hrhs : ¬((contentItems (optField t "content")).any uriHitItem = true ∨
                (scanParse (contentItems (optField t "content"))).isSome = true) := by
              intro hcon
              have hcontra := hiff.mpr hcon
              rw [hscan] at hcontra
              injection hcontra with h2
              exact Bool.noConfusion h2
            rw [not_or] at hrhs
            obtain ⟨hany, hsp⟩ := hrhs
            have hanyf : (contentItems (optField t "content")).any uriHitItem = false := by
              simpa using hany
            have hspn : scanParse (contentItems (optField t "content")) = none := by
              cases hx : scanParse (contentItems (optField t "content")) with
              | none => rfl
              | some q => rw [hx] at hsp; exact absurd rfl hsp
            have hhas : hasUriItem t = false := by
              rw [hasUriItem, if_pos hc]
              exact hanyf
            have hps : parseStructured t = .null := by
              rw [parseStructured, if_neg hb1, if_neg hb2, if_pos hc, hspn]
              rfl
            have hp : parse t = none := by
              rw [parse, hps]
              rfl
            simp [hdr, hp, hhas]
      · have hhas : hasUriItem t = false := by
          rw [hasUriItem, if_neg hc]
        cases t with
        | str s =>
          cases hj : parseJson s with
          | none =>
            have hdr : isDualResponse (.str s) = .ok false := by
              simp only [isDualResponse, if_neg hb1, if_neg hb2, if_neg hc, afterContent, stringShapeIsDR, hj]
            have hps : parseStructured (.str s) = .null := by
              simp only [parseStructured, if_neg hb1, if_neg hb2, if_neg hc, stringShapeStructured, hj]
            have hp : parse (.str s) = none := by
              rw [parse, hps]
              rfl
            simp [hdr, hp, hhas]
          | some q =>
            by_cases hurl : jsHasResUrl q = true
            · have hdr : isDualResponse (.str s) = .ok true := by
                simp only [isDualResponse, if_neg hb1, if_neg hb2, if_neg hc, afterContent, stringShapeIsDR, hj, hurl]
              have hps : parseStructured (.str s) = q := by
                simp only [parseStructured, if_neg hb1, if_neg hb2, if_neg hc,
                  stringShapeStructured, hj, if_pos hurl]
              have hurl' := hurl
              rw [jsHasResUrl] at hurl'
              have hp : (parse (.str s)).isSome = true := by
                rw [parse, hps, if_pos hurl']
                rfl
              simp [hdr, hp]
            · have hurlf : jsHasResUrl q = false := by simpa using hurl
              have hdr : isDualResponse (.str s) = .ok false := by
                simp only [isDualResponse, if_neg hb1, if_neg hb2, if_neg hc, afterContent, stringShapeIsDR, hj, hurlf]
              have hps : parseStructured (.str s) = .null := by
                simp only [parseStructured, if_neg hb1, if_neg hb2, if_neg hc,
                  stringShapeStructured, hj, if_neg hurl]
              have hp : parse (.str s) = none := by
                rw [parse, hps]
                rfl
              simp [hdr, hp, hhas]
        | undefined =>
          have hdr : isDualResponse .undefined = .ok false := by
            simp only [isDualResponse, if_neg hb1, if_neg hb2, if_neg hc, afterContent, stringShapeIsDR]
          have hp : parse .undefined = none := by
            rw [parse, show parseStructured .undefined = .null from by
              simp only [parseStructured, if_neg hb1, if_neg hb2, if_neg hc, stringShapeStructured]]
            rfl
          simp [hdr, hp, hhas]
        | null =>
          have hdr : isDualResponse .null = .ok false := by
            simp only [isDualResponse, if_neg hb1, if_neg hb2, if_neg hc, afterContent, stringShapeIsDR]
          have hp : parse .null = none := by
            rw [parse, show parseStructured .null = .null from by
              simp only [parseStructured, if_neg hb1, if_neg hb2, if_neg hc, stringShapeStructured]]
            rfl
          simp [hdr, hp, hhas]
        | bool b =>
          have hdr : isDualResponse (.bool b) = .ok false := by
            simp only [isDualResponse, if_neg hb1, if_neg hb2, if_neg hc, afterContent, stringShapeIsDR]
          have hp : parse (.bool b) = none := by
            rw [parse, show parseStructured (.bool b) = .null from by
              simp only [parseStructured, if_neg hb1, if_neg hb2, if_neg hc, stringShapeStructured]]
            rfl
          simp [hdr, hp, hhas]
        | num n =>
          have hdr : isDualResponse (.num n) = .ok false := by
            simp only [isDualResponse, if_neg hb1, if_neg hb2, if_neg hc, afterContent, stringShapeIsDR]
          have hp : parse (.num n) = none := by
            rw [parse, show parseStructured (.num n) = .null from by
              simp only [parseStructured, if_neg hb1, if_neg hb2, if_neg hc, stringShapeStructured]]
            rfl
          simp [hdr, hp, hhas]
        | arr es =>
          have hdr : isDualResponse (.arr es) = .ok false := by
            simp only [isDualResponse, if_neg hb1, if_neg hb2, if_neg hc, afterContent, stringShapeIsDR]
          have hp : parse (.arr es) = none := by
            rw [parse, show parseStructured (.arr es) = .null from by
              simp only [parseStructured, if_neg hb1, if_neg hb2, if_neg hc, stringShapeStructured]]
            rfl
          simp [hdr, hp, hhas]
        | obj fs =>
          have hdr : isDualResponse (.obj fs) = .ok false := by
            simp only [isDualResponse, if_neg hb1, if_neg hb2, if_neg hc, afterContent, stringShapeIsDR]
          have hp : parse (.obj fs) = none := by
            rw [parse, show parseStructured (.obj fs) = .null from by
              simp only [parseStructured, if_neg hb1, if_neg hb2, if_neg hc, stringShapeStructured]]
            rfl
          simp [hdr, hp, hhas]

/-- Witness for the amended claim C5: a structuredContent-shaped value on
which the classifier does not throw; detection and parse agree. -/
theorem isDualResponse_true_iff_amended_witness :
    isDualResponse
        (jobj [("structuredContent", jobj [("resource", jobj [("url", .str "http://x")])])]) =
        .ok true ↔
      ((parse
          (jobj [("structuredContent", jobj [("resource", jobj [("url", .str "http://x")])])])).isSome =
        true ∨
        hasUriItem
          (jobj [("structuredContent", jobj [("resource", jobj [("url", .str "http://x")])])]) =
        true) :=
  isDualResponse_true_iff_amended
    (jobj [("structuredContent", jobj [("resource", jobj [("url", .str "http://x")])])])
    rfl






